import Mathlib

/-!
Verification of the URL-Shortener service (Go, PostgreSQL + Redis variant) against its
specification. The Go source in `main.go` is shallowly embedded: database tables become
lists of rows, the Redis cache read becomes an explicit result value, randomness and
per-statement failures become oracle functions, and every operation is a pure Lean
function mirroring the Go control flow.
-/

namespace URLShortenerGo

/-- The `URL` struct of `main.go`, which is also the row shape of the `urls` table
(`id, short_code, long_url, clicks, created_at`). Timestamps are modelled as `Nat`. -/
structure URL where
  ID : Nat
  ShortCode : String
  LongURL : String
  Clicks : Nat
  CreatedAt : Nat
  deriving DecidableEq, Repr

/-- The `AnalyticsEvent` struct: one click event queued for asynchronous persistence. -/
structure AnalyticsEvent where
  ShortCode : String
  IPAddress : String
  UserAgent : String
  Timestamp : Nat
  deriving DecidableEq, Repr

/-- A row of the `analytics` table (`short_code, ip_address, user_agent, timestamp`);
the serial `id` column is left out since nothing reads it. -/
structure AnalyticsRow where
  short_code : String
  ip_address : String
  user_agent : String
  timestamp : Nat
  deriving DecidableEq, Repr

/-- The persistent store: the `urls` and `analytics` tables plus the serial counter
backing the `id` column of `urls`. -/
structure StoreState where
  urls : List URL
  analytics : List AnalyticsRow
  nextId : Nat
  deriving DecidableEq, Repr

/-- The `SELECT COUNT(*) FROM urls WHERE short_code = $1` query of
`generateUniqueShortCode`. -/
def countShortCode (urls : List URL) (shortCode : String) : Nat :=
  (urls.filter (fun r => r.ShortCode == shortCode)).length

/-- The `maxAttempts := 10` constant of `generateUniqueShortCode`. -/
def maxAttempts : Nat := 10

/-- The `startLength := 6` constant of `generateUniqueShortCode`. -/
def startLength : Nat := 6

/-- Inner loop of `generateUniqueShortCode`: for the given code length, run through the
listed attempt indices; generate a candidate (the oracle `gen length attempt` stands for
the crypto-random `generateShortCode(length)` call, whose entropy failure is not
modelled), and return the first candidate whose count in the store is zero. -/
def tryAttempts (gen : Nat → Nat → String) (count : String → Nat) (length : Nat) :
    List Nat → Option String
  | [] => none
  | attempt :: rest =>
    let shortCode := gen length attempt
    if count shortCode == 0 then some shortCode
    else tryAttempts gen count length rest

/-- Outer loop of `generateUniqueShortCode`: run through the listed code lengths, giving
each one `maxAttempts` attempts. -/
def tryLengths (gen : Nat → Nat → String) (count : String → Nat) :
    List Nat → Option String
  | [] => none
  | length :: rest =>
    match tryAttempts gen count length (List.range maxAttempts) with
    | some c => some c
    | none => tryLengths gen count rest

/-- `generateUniqueShortCode` of `main.go`: lengths `startLength` to `startLength + 2`,
each with up to `maxAttempts` attempts; if every combination is exhausted, the
allocation-failure error is returned to the caller. -/
def generateUniqueShortCode (gen : Nat → Nat → String) (count : String → Nat) :
    Except String String :=
  match tryLengths gen count (List.range' startLength 3) with
  | some c => Except.ok c
  | none => Except.error "failed to generate unique short code after multiple attempts"

/-- The flat list of candidate codes the allocator draws, in the exact order it tries
them: lengths 6, 7, 8, and for each length the attempts 0 through 9. -/
def allocationCandidates (gen : Nat → Nat → String) : List String :=
  (List.range' startLength 3).flatMap
    (fun length => (List.range maxAttempts).map (gen length))

theorem tryAttempts_eq_find (gen : Nat → Nat → String) (count : String → Nat)
    (length : Nat) (attempts : List Nat) :
    tryAttempts gen count length attempts =
      (attempts.map (gen length)).find? (fun c => count c == 0) := by
  induction attempts with
  | nil => rfl
  | cons a rest ih =>
    simp only [tryAttempts, List.map_cons, List.find?]
    cases hb : count (gen length a) == 0
    · simp [ih]
    · simp

theorem tryLengths_eq_find (gen : Nat → Nat → String) (count : String → Nat)
    (lengths : List Nat) :
    tryLengths gen count lengths =
      ((lengths.flatMap (fun length => (List.range maxAttempts).map (gen length))).find?
        (fun c => count c == 0)) := by
  induction lengths with
  | nil => rfl
  | cons l rest ih =>
    simp only [tryLengths, List.flatMap_cons, List.find?_append, tryAttempts_eq_find, ih]
    cases ((List.range maxAttempts).map (gen l)).find? (fun c => count c == 0) <;> rfl

/-- The `24 * time.Hour` expiry (in nanoseconds, Go's `time.Duration` unit) passed to
every `redisClient.Set` call. -/
def cacheTTL : Nat := 24 * 60 * 60 * 1000000000

/-- Split a character list at the first occurrence of the `://` separator, returning
the part before it and the part after it. -/
def splitAtSchemeSep : List Char → Option (List Char × List Char)
  | [] => none
  | ':' :: '/' :: '/' :: rest => some ([], rest)
  | c :: rest => (splitAtSchemeSep rest).map (fun p => (c :: p.1, p.2))

/-- Modelled from the spec: `isValidURL` calls Go's `net/url.Parse` (standard library,
outside this repository) and accepts exactly the strings with a non-empty scheme and a
non-empty host; absolute URLs of the shape `scheme://host...` are modelled, the host
running up to the next `/`. -/
def isValidURL (s : String) : Bool :=
  match splitAtSchemeSep s.data with
  | some (scheme, rest) =>
    !scheme.isEmpty && !(rest.takeWhile (fun c => c ≠ '/')).isEmpty
  | none => false

/-- Outcome of one `ShortenURL` call: the value returned to the handler, the store as
left behind, and the list of `redisClient.Set (key, value, ttl)` commands issued. -/
structure ShortenResult where
  result : Except String URL
  store : StoreState
  cacheSets : List (String × URL × Nat)

/-- `ShortenURL` of `main.go`. Control flow from the source: reject an invalid URL;
look up an existing row by `long_url` (first match, as `QueryRow` returns one row) and,
if found, refresh the cache and return it without touching the table; otherwise allocate
a unique code, insert a new row (serial `id`, `clicks` defaulting to 0, `created_at`
defaulting to `now`) and cache it. `gen` stands for the crypto-random generator and
`now` for the insertion timestamp. -/
def shortenURL (gen : Nat → Nat → String) (now : Nat) (st : StoreState)
    (longURL : String) : ShortenResult :=
  if !isValidURL longURL then
    { result := Except.error "invalid URL format", store := st, cacheSets := [] }
  else
    match st.urls.find? (fun r => r.LongURL == longURL) with
    | some existingURL =>
      { result := Except.ok existingURL, store := st,
        cacheSets := [(existingURL.ShortCode, existingURL, cacheTTL)] }
    | none =>
      match generateUniqueShortCode gen (countShortCode st.urls) with
      | Except.error e => { result := Except.error e, store := st, cacheSets := [] }
      | Except.ok shortCode =>
        let newURL : URL :=
          { ID := st.nextId, ShortCode := shortCode, LongURL := longURL,
            Clicks := 0, CreatedAt := now }
        { result := Except.ok newURL,
          store := { st with urls := st.urls ++ [newURL], nextId := st.nextId + 1 },
          cacheSets := [(shortCode, newURL, cacheTTL)] }

/-- Number of rows of the `urls` table holding the given long URL. -/
def countLong (urls : List URL) (longURL : String) : Nat :=
  (urls.filter (fun r => r.LongURL == longURL)).length

/-- A sequence of `ShortenURL` calls on one long URL, each with its own generator
oracle and timestamp, threaded through the store. -/
def shortenSeq (params : List ((Nat → Nat → String) × Nat)) (st : StoreState)
    (longURL : String) : StoreState :=
  params.foldl (fun s p => (shortenURL p.1 p.2 s longURL).store) st

/-- The `100 * time.Millisecond` period of the ticker driving `analyticsWorker`. -/
def tickIntervalMillis : Nat := 100

/-- The flush threshold of `analyticsWorker`: `if len(batch) >= 50`. -/
def flushBatchSize : Nat := 50

/-- The capacity of `analyticsChannel`, from `make(chan AnalyticsEvent, 1000)` in
`NewURLShortener`. -/
def analyticsChannelCapacity : Nat := 1000

/-- `RecordAnalytics` of `main.go`: the `select` with a `default` branch sends the event
to the buffered channel when it has room and otherwise drops it (only logging). The
returned flag records whether the event was accepted; the function is total — the caller
never blocks and never receives an error. -/
def RecordAnalytics (queue : List AnalyticsEvent) (event : AnalyticsEvent) :
    List AnalyticsEvent × Bool :=
  if queue.length < analyticsChannelCapacity then (queue ++ [event], true)
  else (queue, false)

/-- One iteration of the `select` inside `analyticsWorker` either receives an event from
the channel or observes a ticker firing. -/
inductive WorkerInput where
  | recv (event : AnalyticsEvent)
  | tick
  deriving DecidableEq, Repr

/-- State of the drain loop: the in-memory batch plus the history of `processBatch`
calls made so far (each recorded flush is the batch passed to `processBatch`). -/
structure WorkerState where
  batch : List AnalyticsEvent
  flushes : List (List AnalyticsEvent)
  deriving DecidableEq, Repr

/-- One iteration of the `for { select { ... } }` loop of `analyticsWorker`: a received
event is appended to the batch, which is flushed as soon as it holds `flushBatchSize`
events; a ticker firing flushes any non-empty batch. -/
def workerStep (s : WorkerState) : WorkerInput → WorkerState
  | WorkerInput.recv event =>
    let batch := s.batch ++ [event]
    if batch.length ≥ flushBatchSize then { batch := [], flushes := s.flushes ++ [batch] }
    else { batch := batch, flushes := s.flushes }
  | WorkerInput.tick =>
    if s.batch.length > 0 then { batch := [], flushes := s.flushes ++ [s.batch] }
    else s

/-- Run the drain loop over a sequence of inputs. -/
def workerRun (s : WorkerState) (inputs : List WorkerInput) : WorkerState :=
  inputs.foldl workerStep s

/-- The drain loop starts with an empty batch (`make([]AnalyticsEvent, 0, 50)`). -/
def workerInit : WorkerState := { batch := [], flushes := [] }

/-- The `UPDATE urls SET clicks = clicks + 1 WHERE short_code = $1` statement. -/
def incrementClicks (urls : List URL) (shortCode : String) : List URL :=
  urls.map (fun r =>
    if r.ShortCode == shortCode then { r with Clicks := r.Clicks + 1 } else r)

/-- The `INSERT INTO analytics ...` row built from one event. -/
def eventRow (event : AnalyticsEvent) : AnalyticsRow :=
  { short_code := event.ShortCode, ip_address := event.IPAddress,
    user_agent := event.UserAgent, timestamp := event.Timestamp }

/-- One iteration of the per-event loop of `processBatch`: a failing click-increment
statement (`updateFail`) logs and `continue`s, skipping the event entirely; after a
successful increment, a failing analytics insert (`insertFail`) logs and drops only the
analytics row, keeping the increment. -/
def applyEvent (updateFail insertFail : AnalyticsEvent → Bool) (st : StoreState)
    (event : AnalyticsEvent) : StoreState :=
  if updateFail event then st
  else
    let st1 := { st with urls := incrementClicks st.urls event.ShortCode }
    if insertFail event then st1
    else { st1 with analytics := st1.analytics ++ [eventRow event] }

/-- `processBatch` of `main.go`, as the effect on the persistent store. An empty batch
returns at once. A failure of `tx.Begin`, of either `tx.Prepare`, or of `tx.Commit` is
logged and — via the deferred `tx.Rollback` discarding the uncommitted transaction —
leaves the store untouched. Only when the commit succeeds do the per-event effects
(applied in batch order) reach the store. -/
def processBatch (beginFail updatePrepareFail insertPrepareFail commitFail : Bool)
    (updateFail insertFail : AnalyticsEvent → Bool)
    (st : StoreState) (events : List AnalyticsEvent) : StoreState :=
  if events.length = 0 then st
  else if beginFail then st
  else if updatePrepareFail then st
  else if insertPrepareFail then st
  else if commitFail then st
  else events.foldl (applyEvent updateFail insertFail) st

/-- Outcome of the `redisClient.Get(ctx, shortCode)` call at the top of `GetURL`, with
the subsequent `json.Unmarshal` folded in: a present value either deserializes to a
record (`hit (some u)`) or is corrupt (`hit none`); `missNil` is the `redis.Nil`
not-found reply; `backendError` is any other Redis failure. -/
inductive CacheGetResult where
  | hit (decoded : Option URL)
  | missNil
  | backendError
  deriving DecidableEq, Repr

/-- Outcome of one `GetURL` call: the value or error returned, whether the store was
queried, and the `redisClient.Set (key, value, ttl)` commands issued. -/
structure GetURLResult where
  result : Except String URL
  storeQueried : Bool
  cacheSets : List (String × URL × Nat)

/-- `GetURL` of `main.go`. Control flow from the source: a cache hit whose JSON
deserializes is returned at once; a corrupt hit and a non-`redis.Nil` cache error are
only logged; every path other than a well-formed hit falls through to the store query
by `short_code`; a row found there is cached for 24 hours and returned, and an absent
row yields the not-found error. -/
def GetURL (cres : CacheGetResult) (urls : List URL) (shortCode : String) :
    GetURLResult :=
  match cres with
  | CacheGetResult.hit (some urlRecord) =>
    { result := Except.ok urlRecord, storeQueried := false, cacheSets := [] }
  | _ =>
    match urls.find? (fun r => r.ShortCode == shortCode) with
    | some urlRecord =>
      { result := Except.ok urlRecord, storeQueried := true,
        cacheSets := [(shortCode, urlRecord, cacheTTL)] }
    | none =>
      { result := Except.error "short URL not found", storeQueried := true,
        cacheSets := [] }

/-- Number of `wg.Add` registrations performed on `us.wg` anywhere in the repository:
the worker goroutine is launched with a bare `go us.analyticsWorker()` and no `wg.Add`
call exists, so the wait-group counter is 0 when `Close` reaches `us.wg.Wait()`. -/
def wgRegistrations : Nat := 0

/-- `sync.WaitGroup.Wait` semantics: the call returns immediately exactly when the
counter is zero. -/
def wgWaitReturnsImmediately (counter : Nat) : Bool := counter == 0

/-- The zero value of `AnalyticsEvent`: what `<-us.analyticsChannel` yields once the
channel has been closed and its buffer drained. `analyticsWorker` ignores the second
(`ok`) value of the receive, so it cannot tell this apart from a real event. -/
def zeroAnalyticsEvent : AnalyticsEvent :=
  { ShortCode := "", IPAddress := "", UserAgent := "", Timestamp := 0 }

/-- Accumulate decimal digits; any non-digit character is a parse error. -/
def parseDigitsAux : List Char → Nat → Option Nat
  | [], acc => some acc
  | c :: cs, acc =>
    if c.isDigit then parseDigitsAux cs (acc * 10 + (c.toNat - Char.toNat '0'))
    else none

/-- A non-empty run of decimal digits as a number. -/
def parseDigits : List Char → Option Nat
  | [] => none
  | cs => parseDigitsAux cs 0

/-- `strconv.Atoi`: an optional sign followed by decimal digits; anything else is a
parse error (`none`). Overflow of the 64-bit range is not modelled. -/
def goAtoi (s : String) : Option Int :=
  match s.data with
  | '-' :: rest => (parseDigits rest).map (fun n => -(n : Int))
  | '+' :: rest => (parseDigits rest).map (fun n => (n : Int))
  | cs => (parseDigits cs).map (fun n => (n : Int))

/-- The limit computation of `listHandler`: start from the default 50; a non-empty
`limit` query parameter replaces it only when it parses and lies in (0,100]. `Get`
returns the empty string for a missing parameter. -/
def listLimit (limitStr : String) : Int :=
  if limitStr ≠ "" then
    match goAtoi limitStr with
    | some l => if l > 0 ∧ l ≤ 100 then l else 50
    | none => 50
  else 50

/-- An HTTP response as status code plus body text (success bodies are abbreviated to
their distinguishing payload; see the individual handler models). -/
structure HTTPResponse where
  status : Nat
  body : String
  deriving DecidableEq, Repr

/-- Outcome of the `us.ShortenURL(ctx, request.URL)` call as seen by the handler. -/
inductive ShortenCallResult where
  | ok (record : URL)
  | err (msg : String)
  deriving DecidableEq, Repr

/-- `shortenHandler` of `main.go`. Inputs: the request method, the decoded `url` field
(`none` models a JSON decode failure), the `ShortenURL` outcome, and whether
`ctx.Err() == context.DeadlineExceeded` at the time the error branch runs. On a
non-timeout `ShortenURL` failure the handler replies `http.StatusBadRequest` with
`err.Error()` itself as the body. The 200 body, a JSON object, is abbreviated to the
short code it carries. -/
def shortenHandler (method : String) (decodedURL : Option String)
    (outcome : ShortenCallResult) (deadlineExceeded : Bool) : HTTPResponse :=
  if method ≠ "POST" then { status := 405, body := "Method not allowed" }
  else
    match decodedURL with
    | none => { status := 400, body := "Invalid JSON" }
    | some u =>
      if u = "" then { status := 400, body := "URL is required" }
      else
        match outcome with
        | ShortenCallResult.ok record => { status := 200, body := record.ShortCode }
        | ShortenCallResult.err msg =>
          if deadlineExceeded then { status := 408, body := "Request timeout" }
          else { status := 400, body := msg }

/-- Insertion of one row into a list sorted by descending timestamp (stable, keeping
earlier-listed rows first among equal timestamps). -/
def insertByTimestampDesc (row : AnalyticsRow) : List AnalyticsRow → List AnalyticsRow
  | [] => [row]
  | r :: rest =>
    if r.timestamp ≥ row.timestamp then r :: insertByTimestampDesc row rest
    else row :: r :: rest

/-- Sort analytics rows by descending timestamp (`ORDER BY timestamp DESC`). -/
def sortByTimestampDesc : List AnalyticsRow → List AnalyticsRow
  | [] => []
  | r :: rest => insertByTimestampDesc r (sortByTimestampDesc rest)

/-- `GetAnalytics` of `main.go`: rows of the `analytics` table for the code, ordered by
timestamp descending, limited to 1000. -/
def GetAnalytics (rows : List AnalyticsRow) (shortCode : String) : List AnalyticsRow :=
  (sortByTimestampDesc (rows.filter (fun a => a.short_code == shortCode))).take 1000

/-- The `SELECT clicks FROM urls WHERE short_code = $1` re-read in `statsHandler`;
`none` models `sql.ErrNoRows`. -/
def statsClicksQuery (urls : List URL) (shortCode : String) : Option Nat :=
  (urls.find? (fun r => r.ShortCode == shortCode)).map (fun r => r.Clicks)

/-- The JSON object a successful `statsHandler` writes. -/
structure StatsResponse where
  short_code : String
  long_url : String
  clicks : Nat
  created_at : Nat
  analytics : List AnalyticsRow
  deriving DecidableEq, Repr

/-- `statsHandler` of `main.go`. Control flow from the source: empty code → 400;
`GetURL` (through the cache) failing → 404; then the `clicks` column is re-read
directly from the store (a `Scan` failure → 500) and overwrites `urlRecord.Clicks`
before the response is written, so the response's `clicks` never comes from the cache
entry. Timeout branches (`ctx.Err()`) are not modelled. -/
def statsHandler (cres : CacheGetResult) (urls : List URL)
    (analyticsRows : List AnalyticsRow) (shortCode : String) :
    Except HTTPResponse StatsResponse :=
  if shortCode = "" then
    Except.error { status := 400, body := "Short code is required" }
  else
    match (GetURL cres urls shortCode).result with
    | Except.error _ => Except.error { status := 404, body := "Short URL not found" }
    | Except.ok urlRecord =>
      match statsClicksQuery urls shortCode with
      | none => Except.error { status := 500, body := "Error retrieving stats" }
      | some clicks =>
        Except.ok { short_code := urlRecord.ShortCode, long_url := urlRecord.LongURL,
                    clicks := clicks, created_at := urlRecord.CreatedAt,
                    analytics := GetAnalytics analyticsRows shortCode }

/-!
Theorems, one per claim of the specification review,
with witnesses instantiating the hypothesised ones.
-/

/-- C1: `generateUniqueShortCode` tries code lengths 6, 7 and 8 in order; for each
length it makes up to 10 attempts of generating a candidate and querying the store,
returning the first candidate (in that length-then-attempt order) whose count in the
store is zero; if every length/attempt combination is exhausted it returns the
allocation-failure error to the caller rather than retrying further. -/
theorem generateUniqueShortCode_first_unused (gen : Nat → Nat → String)
    (count : String → Nat) :
    maxAttempts = 10 ∧ List.range' startLength 3 = [6, 7, 8] ∧
    generateUniqueShortCode gen count =
      (match (allocationCandidates gen).find? (fun c => count c == 0) with
       | some c => Except.ok c
       | none =>
         Except.error "failed to generate unique short code after multiple attempts") := by
  refine ⟨rfl, by decide, ?_⟩
  simp only [generateUniqueShortCode, allocationCandidates, tryLengths_eq_find]

/-- C5: `RecordAnalytics` is non-blocking for every input: the queue capacity is 1000;
when the queue has room the event is appended, when it is full the event is dropped and
the queue is left unchanged; in both cases the function is total, returning only the
accepted/dropped flag — the caller is never blocked and never receives an error — and
the queue never grows past the capacity. -/
theorem recordAnalytics_nonblocking
    (q1 q2 q3 : List AnalyticsEvent) (e1 e2 e3 : AnalyticsEvent)
    (h1 : q1.length < analyticsChannelCapacity)
    (h2 : q2.length ≥ analyticsChannelCapacity)
    (h3 : q3.length ≤ analyticsChannelCapacity) :
    analyticsChannelCapacity = 1000 ∧
    RecordAnalytics q1 e1 = (q1 ++ [e1], true) ∧
    RecordAnalytics q2 e2 = (q2, false) ∧
    (RecordAnalytics q3 e3).1.length ≤ analyticsChannelCapacity := by
  refine ⟨rfl, ?_, ?_, ?_⟩
  · unfold RecordAnalytics
    rw [if_pos h1]
  · unfold RecordAnalytics
    rw [if_neg (Nat.not_lt.mpr h2)]
  · unfold RecordAnalytics
    by_cases h : q3.length < analyticsChannelCapacity
    · rw [if_pos h]
      simp only [List.length_append, List.length_singleton]
      omega
    · rw [if_neg h]
      exact h3

theorem recordAnalytics_nonblocking_witness :
    analyticsChannelCapacity = 1000 ∧
    RecordAnalytics [] zeroAnalyticsEvent = ([zeroAnalyticsEvent], true) ∧
    RecordAnalytics (List.replicate 1000 zeroAnalyticsEvent) zeroAnalyticsEvent =
      (List.replicate 1000 zeroAnalyticsEvent, false) ∧
    (RecordAnalytics [] zeroAnalyticsEvent).1.length ≤ analyticsChannelCapacity :=
  recordAnalytics_nonblocking [] (List.replicate 1000 zeroAnalyticsEvent) []
    zeroAnalyticsEvent zeroAnalyticsEvent zeroAnalyticsEvent
    (by decide)
    (by rw [List.length_replicate]; exact Nat.le_refl 1000)
    (by decide)

/-- C7 (code bug): `Close` does not wait for any final drain. The wait-group counter is
0 when `us.wg.Wait()` runs (no `wg.Add` exists in the repository), so `Wait` returns
immediately; and the drain loop treats a receive on the closed channel — which yields
the zero-value event — as an ordinary event to batch, so it never performs a
final-flush-and-exit on shutdown. -/
theorem close_returns_without_drain :
    wgWaitReturnsImmediately wgRegistrations = true ∧
    workerStep { batch := [], flushes := [] } (WorkerInput.recv zeroAnalyticsEvent) =
      { batch := [zeroAnalyticsEvent], flushes := [] } :=
  ⟨rfl, by decide⟩

/-- C8 counterexample: a requested limit of 200 (above 100) yields the default 50, not
the clamped bound 100 — the effective limit is not obtained by clamping. -/
theorem listLimit_not_clamped : listLimit "200" = 50 ∧ (50 : Int) ≠ 100 :=
  ⟨by decide, by decide⟩

/-- C8 (amended): a missing limit parameter yields 50, a supplied value that parses
into (0,100] is used as-is, and any other supplied value (non-numeric, zero or
negative, or above 100) falls back to the default 50 rather than being clamped to the
interval boundary; the effective limit always lies in (0,100]. -/
theorem listLimit_default_or_passthrough (s out bad any : String) (l lOut : Int)
    (hs : goAtoi s = some l) (hl : 0 < l ∧ l ≤ 100) (hsne : s ≠ "")
    (hout : goAtoi out = some lOut) (houtr : lOut ≤ 0 ∨ 100 < lOut) (houtne : out ≠ "")
    (hbad : goAtoi bad = none) (hbadne : bad ≠ "") :
    listLimit "" = 50 ∧ listLimit s = l ∧ listLimit out = 50 ∧ listLimit bad = 50 ∧
    (0 < listLimit any ∧ listLimit any ≤ 100) := by
  refine ⟨rfl, ?_, ?_, ?_, ?_⟩
  · unfold listLimit
    rw [if_pos hsne, hs]
    show (if l > 0 ∧ l ≤ 100 then l else 50) = l
    exact if_pos ⟨hl.1, hl.2⟩
  · unfold listLimit
    rw [if_pos houtne, hout]
    show (if lOut > 0 ∧ lOut ≤ 100 then lOut else 50) = 50
    exact if_neg (by omega)
  · unfold listLimit
    rw [if_pos hbadne, hbad]
  · unfold listLimit
    by_cases hany : any ≠ ""
    · rw [if_pos hany]
      cases goAtoi any with
      | none => exact ⟨by norm_num, by norm_num⟩
      | some v =>
        show 0 < (if v > 0 ∧ v ≤ 100 then v else 50) ∧
          (if v > 0 ∧ v ≤ 100 then v else 50) ≤ 100
        by_cases hv : v > 0 ∧ v ≤ 100
        · rw [if_pos hv]; exact hv
        · rw [if_neg hv]; exact ⟨by norm_num, by norm_num⟩
    · rw [if_neg hany]; exact ⟨by norm_num, by norm_num⟩

theorem listLimit_default_or_passthrough_witness :
    listLimit "" = 50 ∧ listLimit "7" = 7 ∧ listLimit "200" = 50 ∧
    listLimit "xy" = 50 ∧ (0 < listLimit "0" ∧ listLimit "0" ≤ 100) :=
  listLimit_default_or_passthrough "7" "200" "xy" "0" 7 200
    (by decide) (by decide) (by decide) (by decide) (by decide) (by decide)
    (by decide) (by decide)

/-- C9 counterexample: on an unexpected store failure (not a timeout), the shorten
handler replies with status 400 — not 500 — and the body is the internal error detail
itself (`err.Error()`), leaked to the client. -/
theorem shortenHandler_leaks_internal_detail :
    shortenHandler "POST" (some "https://example.com")
        (ShortenCallResult.err "pq: connection refused") false =
      { status := 400, body := "pq: connection refused" } ∧ (400 : Nat) ≠ 500 :=
  ⟨rfl, by decide⟩

/-- C9 (amended): when `ShortenURL` fails with an unexpected store or cache failure
(not a timeout), the shorten handler responds with status 400 and the error's own
message as the body — internal detail is sent to the client, not hidden; a timeout
yields 408, and the handler never produces a 500 on any input. -/
theorem shortenHandler_error_mapping (u msg : String) (hu : u ≠ "")
    (method : String) (decodedURL : Option String) (outcome : ShortenCallResult)
    (deadlineExceeded : Bool) :
    shortenHandler "POST" (some u) (ShortenCallResult.err msg) false =
      { status := 400, body := msg } ∧
    shortenHandler "POST" (some u) (ShortenCallResult.err msg) true =
      { status := 408, body := "Request timeout" } ∧
    (shortenHandler method decodedURL outcome deadlineExceeded).status ≠ 500 := by
  refine ⟨by simp [shortenHandler, hu], by simp [shortenHandler, hu], ?_⟩
  rcases decodedURL with _ | u2
  · by_cases hm : method ≠ "POST" <;> simp [shortenHandler, hm]
  · by_cases hm : method ≠ "POST"
    · simp [shortenHandler, hm]
    · rcases outcome with r | m2
      · by_cases hu2 : u2 = "" <;> simp [shortenHandler, hm, hu2]
      · by_cases hu2 : u2 = "" <;> cases deadlineExceeded <;>
          simp [shortenHandler, hm, hu2]

theorem shortenHandler_error_mapping_witness :
    shortenHandler "POST" (some "https://example.com")
        (ShortenCallResult.err "dial tcp: connection reset") false =
      { status := 400, body := "dial tcp: connection reset" } ∧
    shortenHandler "POST" (some "https://example.com")
        (ShortenCallResult.err "dial tcp: connection reset") true =
      { status := 408, body := "Request timeout" } ∧
    (shortenHandler "GET" none (ShortenCallResult.err "x") false).status ≠ 500 :=
  shortenHandler_error_mapping "https://example.com" "dial tcp: connection reset"
    (by decide) "GET" none (ShortenCallResult.err "x") false

/-- C6: `GetURL` is read-through: a cache hit with a well-formed entry is returned
without consulting the store; a corrupt entry, a `redis.Nil` miss, and a cache-backend
failure all fall back to the store query, a successful store read repopulating the
cache with the 24-hour expiry; the result is the not-found error exactly when the code
has no well-formed cache entry and is absent from the store — so a cache failure alone
never fails the lookup. -/
theorem getURL_read_through (u r : URL) (urls urls3 : List URL) (c c3 : String)
    (cres cres3 : CacheGetResult)
    (hc : cres = CacheGetResult.hit none ∨ cres = CacheGetResult.missNil ∨
          cres = CacheGetResult.backendError)
    (hr : urls.find? (fun x => x.ShortCode == c) = some r) :
    cacheTTL = 24 * 60 * 60 * 1000000000 ∧
    GetURL (CacheGetResult.hit (some u)) urls c =
      { result := Except.ok u, storeQueried := false, cacheSets := [] } ∧
    GetURL cres urls c =
      { result := Except.ok r, storeQueried := true,
        cacheSets := [(c, r, cacheTTL)] } ∧
    ((GetURL cres3 urls3 c3).result = Except.error "short URL not found" ↔
      ((∀ v, cres3 ≠ CacheGetResult.hit (some v)) ∧
       urls3.find? (fun x => x.ShortCode == c3) = none)) := by
  refine ⟨rfl, rfl, ?_, ?_⟩
  · rcases hc with rfl | rfl | rfl <;> simp [GetURL, hr]
  · cases cres3 with
    | hit decoded =>
      cases decoded with
      | some v =>
        simp only [GetURL]
        constructor
        · intro hcontra; exact absurd hcontra (by simp)
        · rintro ⟨hall, -⟩; exact absurd rfl (hall v)
      | none =>
        cases hfind : urls3.find? (fun x => x.ShortCode == c3) <;>
          simp [GetURL, hfind]
    | missNil =>
      cases hfind : urls3.find? (fun x => x.ShortCode == c3) <;>
        simp [GetURL, hfind]
    | backendError =>
      cases hfind : urls3.find? (fun x => x.ShortCode == c3) <;>
        simp [GetURL, hfind]

theorem getURL_read_through_witness :
    cacheTTL = 24 * 60 * 60 * 1000000000 ∧
    GetURL (CacheGetResult.hit (some
        { ID := 1, ShortCode := "abc123", LongURL := "https://example.com",
          Clicks := 0, CreatedAt := 0 }))
      [{ ID := 1, ShortCode := "abc123", LongURL := "https://example.com",
         Clicks := 0, CreatedAt := 0 }] "abc123" =
      { result := Except.ok
          { ID := 1, ShortCode := "abc123", LongURL := "https://example.com",
            Clicks := 0, CreatedAt := 0 },
        storeQueried := false, cacheSets := [] } ∧
    GetURL CacheGetResult.backendError
      [{ ID := 1, ShortCode := "abc123", LongURL := "https://example.com",
         Clicks := 0, CreatedAt := 0 }] "abc123" =
      { result := Except.ok
          { ID := 1, ShortCode := "abc123", LongURL := "https://example.com",
            Clicks := 0, CreatedAt := 0 },
        storeQueried := true,
        cacheSets := [("abc123",
          { ID := 1, ShortCode := "abc123", LongURL := "https://example.com",
            Clicks := 0, CreatedAt := 0 }, cacheTTL)] } ∧
    ((GetURL CacheGetResult.missNil [] "nope").result =
        Except.error "short URL not found" ↔
      ((∀ v, CacheGetResult.missNil ≠ CacheGetResult.hit (some v)) ∧
       ([] : List URL).find? (fun x => x.ShortCode == "nope") = none)) :=
  getURL_read_through
    { ID := 1, ShortCode := "abc123", LongURL := "https://example.com",
      Clicks := 0, CreatedAt := 0 }
    { ID := 1, ShortCode := "abc123", LongURL := "https://example.com",
      Clicks := 0, CreatedAt := 0 }
    [{ ID := 1, ShortCode := "abc123", LongURL := "https://example.com",
       Clicks := 0, CreatedAt := 0 }] [] "abc123" "nope"
    CacheGetResult.backendError CacheGetResult.missNil
    (Or.inr (Or.inr rfl)) (by decide)

/-- C10: every successful stats response reports the clicks value freshly re-read from
the store: `statsHandler` resolves the record (possibly from the cache) and then
overwrites the clicks field with the store's `clicks` column, so the response's clicks
equal the store value and agree across any two cache outcomes, regardless of the clicks
held in the cache entry. -/
theorem statsHandler_fresh_clicks (cres cres2 : CacheGetResult) (urls : List URL)
    (rows : List AnalyticsRow) (code : String) (resp resp2 : StatsResponse)
    (h : statsHandler cres urls rows code = Except.ok resp)
    (h2 : statsHandler cres2 urls rows code = Except.ok resp2) :
    statsClicksQuery urls code = some resp.clicks ∧ resp.clicks = resp2.clicks := by
  unfold statsHandler at h h2
  by_cases hcode : code = ""
  · rw [if_pos hcode] at h
    exact absurd h (by simp)
  · rw [if_neg hcode] at h
    rw [if_neg hcode] at h2
    cases hg : (GetURL cres urls code).result with
    | error e =>
      rw [hg] at h
      exact absurd h (by simp)
    | ok rec =>
      rw [hg] at h
      cases hg2 : (GetURL cres2 urls code).result with
      | error e2 =>
        rw [hg2] at h2
        exact absurd h2 (by simp)
      | ok rec2 =>
        rw [hg2] at h2
        cases hq : statsClicksQuery urls code with
        | none =>
          rw [hq] at h
          exact absurd h (by simp)
        | some clicks =>
          rw [hq] at h h2
          simp only [Except.ok.injEq] at h h2
          subst h
          subst h2
          exact ⟨rfl, rfl⟩

theorem statsHandler_fresh_clicks_witness :
    statsClicksQuery
        [{ ID := 1, ShortCode := "abc123", LongURL := "https://example.com",
           Clicks := 7, CreatedAt := 0 }] "abc123" =
      some ({ short_code := "abc123", long_url := "https://example.com", clicks := 7,
              created_at := 0, analytics := [] } : StatsResponse).clicks ∧
    ({ short_code := "abc123", long_url := "https://example.com", clicks := 7,
       created_at := 0, analytics := [] } : StatsResponse).clicks =
      ({ short_code := "abc123", long_url := "https://example.com", clicks := 7,
         created_at := 0, analytics := [] } : StatsResponse).clicks :=
  statsHandler_fresh_clicks
    (CacheGetResult.hit (some
      { ID := 1, ShortCode := "abc123", LongURL := "https://example.com",
        Clicks := 3, CreatedAt := 0 }))
    CacheGetResult.missNil
    [{ ID := 1, ShortCode := "abc123", LongURL := "https://example.com",
       Clicks := 7, CreatedAt := 0 }] [] "abc123"
    { short_code := "abc123", long_url := "https://example.com", clicks := 7,
      created_at := 0, analytics := [] }
    { short_code := "abc123", long_url := "https://example.com", clicks := 7,
      created_at := 0, analytics := [] }
    rfl rfl

/-- C2: `ShortenURL` is idempotent on the long URL: when a (valid) long URL already has
its row in the store, a shorten call returns exactly that row and leaves the `urls`
table untouched, so after any further sequence of shorten calls on the same long URL
the table is unchanged and still holds exactly one row for it. -/
theorem shortenURL_idempotent (gen : Nat → Nat → String) (now : Nat) (st : StoreState)
    (longURL : String) (r : URL) (params : List ((Nat → Nat → String) × Nat))
    (hvalid : isValidURL longURL = true)
    (hfound : st.urls.find? (fun x => x.LongURL == longURL) = some r)
    (hone : countLong st.urls longURL = 1) :
    (shortenURL gen now st longURL).result = Except.ok r ∧
    (shortenURL gen now st longURL).store = st ∧
    (shortenSeq params st longURL).urls = st.urls ∧
    countLong (shortenSeq params st longURL).urls longURL = 1 := by
  have hcall : ∀ (g : Nat → Nat → String) (n : Nat),
      shortenURL g n st longURL =
        { result := Except.ok r, store := st,
          cacheSets := [(r.ShortCode, r, cacheTTL)] } := by
    intro g n
    unfold shortenURL
    rw [hvalid]
    rw [if_neg (by decide : ¬((!true) = true))]
    rw [hfound]
  have hseq : shortenSeq params st longURL = st := by
    induction params with
    | nil => rfl
    | cons p rest ih =>
      show shortenSeq rest (shortenURL p.1 p.2 st longURL).store longURL = st
      rw [hcall p.1 p.2]
      exact ih
  refine ⟨?_, ?_, ?_, ?_⟩
  · rw [hcall gen now]
  · rw [hcall gen now]
  · rw [hseq]
  · rw [hseq]; exact hone

theorem shortenURL_idempotent_witness :
    ((shortenURL (fun _ _ => "xYz789") 5
        { urls := [{ ID := 1, ShortCode := "abc123",
                     LongURL := "https://example.com", Clicks := 0, CreatedAt := 0 }],
          analytics := [], nextId := 2 } "https://example.com").result =
      Except.ok { ID := 1, ShortCode := "abc123", LongURL := "https://example.com",
                  Clicks := 0, CreatedAt := 0 }) ∧
    ((shortenURL (fun _ _ => "xYz789") 5
        { urls := [{ ID := 1, ShortCode := "abc123",
                     LongURL := "https://example.com", Clicks := 0, CreatedAt := 0 }],
          analytics := [], nextId := 2 } "https://example.com").store =
      { urls := [{ ID := 1, ShortCode := "abc123", LongURL := "https://example.com",
                   Clicks := 0, CreatedAt := 0 }],
        analytics := [], nextId := 2 }) ∧
    ((shortenSeq [(fun _ _ => "qqqqqq", 8), (fun _ _ => "wwwwww", 9)]
        { urls := [{ ID := 1, ShortCode := "abc123",
                     LongURL := "https://example.com", Clicks := 0, CreatedAt := 0 }],
          analytics := [], nextId := 2 } "https://example.com").urls =
      [{ ID := 1, ShortCode := "abc123", LongURL := "https://example.com",
         Clicks := 0, CreatedAt := 0 }]) ∧
    countLong (shortenSeq [(fun _ _ => "qqqqqq", 8), (fun _ _ => "wwwwww", 9)]
        { urls := [{ ID := 1, ShortCode := "abc123",
                     LongURL := "https://example.com", Clicks := 0, CreatedAt := 0 }],
          analytics := [], nextId := 2 } "https://example.com").urls
      "https://example.com" = 1 :=
  shortenURL_idempotent (fun _ _ => "xYz789") 5
    { urls := [{ ID := 1, ShortCode := "abc123", LongURL := "https://example.com",
                 Clicks := 0, CreatedAt := 0 }],
      analytics := [], nextId := 2 } "https://example.com"
    { ID := 1, ShortCode := "abc123", LongURL := "https://example.com",
      Clicks := 0, CreatedAt := 0 }
    [(fun _ _ => "qqqqqq", 8), (fun _ _ => "wwwwww", 9)]
    (by decide) (by decide) (by decide)

theorem workerRun_recvs_below (events : List AnalyticsEvent) (s : WorkerState)
    (h : s.batch.length + events.length < flushBatchSize) :
    workerRun s (events.map WorkerInput.recv) =
      { batch := s.batch ++ events, flushes := s.flushes } := by
  induction events generalizing s with
  | nil => simp [workerRun]
  | cons e rest ih =>
    have hne : ¬ ((s.batch ++ [e]).length ≥ flushBatchSize) := by
      rw [List.length_append, List.length_singleton]
      simp only [List.length_cons] at h
      omega
    have hstep : workerStep s (WorkerInput.recv e) =
        { batch := s.batch ++ [e], flushes := s.flushes } := by
      simp only [workerStep]
      rw [if_neg hne]
    have hrest : ({ batch := s.batch ++ [e], flushes := s.flushes } :
        WorkerState).batch.length + rest.length < flushBatchSize := by
      rw [List.length_append, List.length_singleton]
      simp only [List.length_cons] at h
      omega
    calc workerRun s ((e :: rest).map WorkerInput.recv)
        = workerRun (workerStep s (WorkerInput.recv e)) (rest.map WorkerInput.recv) :=
          rfl
      _ = { batch := (s.batch ++ [e]) ++ rest, flushes := s.flushes } := by
          rw [hstep, ih _ hrest]
      _ = { batch := s.batch ++ e :: rest, flushes := s.flushes } := by
          rw [List.append_assoc, List.singleton_append]

theorem workerRun_append (s : WorkerState) (a b : List WorkerInput) :
    workerRun s (a ++ b) = workerRun (workerRun s a) b := by
  simp [workerRun, List.foldl_append]

/-- C3: the drain loop flushes exactly when the batch reaches 50 received events or a
ticker firing (period 100 ms) finds a non-empty batch: 49 received events alone are
never flushed, the next tick flushes exactly those 49 events in one flush, and 50
events received with no intervening tick produce exactly one immediate flush of all 50;
in general a step changes the flush history precisely when it is a receive filling the
batch to 50 or a tick on a non-empty batch. -/
theorem analyticsWorker_batching (es49 es50 : List AnalyticsEvent)
    (s : WorkerState) (i : WorkerInput)
    (h49 : es49.length = 49) (h50 : es50.length = 50) :
    tickIntervalMillis = 100 ∧ flushBatchSize = 50 ∧
    (workerRun workerInit (es49.map WorkerInput.recv)).flushes = [] ∧
    (workerRun workerInit (es49.map WorkerInput.recv ++ [WorkerInput.tick])).flushes =
      [es49] ∧
    (workerRun workerInit (es50.map WorkerInput.recv)).flushes = [es50] ∧
    ((workerStep s i).flushes ≠ s.flushes ↔
      ((∃ e, i = WorkerInput.recv e ∧ s.batch.length + 1 ≥ flushBatchSize) ∨
       (i = WorkerInput.tick ∧ 0 < s.batch.length))) := by
  have hrun49 : workerRun workerInit (es49.map WorkerInput.recv) =
      { batch := es49, flushes := [] } := by
    have h' : workerInit.batch.length + es49.length < flushBatchSize := by
      simp [workerInit, flushBatchSize, h49]
    rw [workerRun_recvs_below es49 workerInit h']
    simp [workerInit]
  refine ⟨rfl, rfl, ?_, ?_, ?_, ?_⟩
  · rw [hrun49]
  · rw [workerRun_append, hrun49]
    have hpos : 0 < es49.length := by omega
    simp [workerRun, workerStep, hpos]
  · obtain ⟨e, he⟩ : ∃ e, es50.drop 49 = [e] := by
      apply List.length_eq_one.mp
      rw [List.length_drop, h50]
    have htake : (es50.take 49).length = 49 := by
      rw [List.length_take, h50]
      omega
    have hsplit : es50 = es50.take 49 ++ [e] := by
      conv_lhs => rw [← List.take_append_drop 49 es50]
      rw [he]
    have hfirst : workerRun workerInit ((es50.take 49).map WorkerInput.recv) =
        { batch := es50.take 49, flushes := [] } := by
      have h' : workerInit.batch.length + (es50.take 49).length < flushBatchSize := by
        simp [workerInit, flushBatchSize, htake]
      rw [workerRun_recvs_below _ workerInit h']
      simp [workerInit]
    have hge : (es50.take 49 ++ [e]).length ≥ flushBatchSize := by
      rw [List.length_append, List.length_singleton, htake]
      decide
    conv_lhs => rw [hsplit]
    rw [List.map_append, workerRun_append, hfirst]
    show (workerStep { batch := es50.take 49, flushes := [] }
        (WorkerInput.recv e)).flushes = [es50]
    simp only [workerStep]
    rw [if_pos hge]
    simp only [List.nil_append]
    rw [← hsplit]
  · cases i with
    | recv e =>
      simp only [workerStep]
      by_cases hb : (s.batch ++ [e]).length ≥ flushBatchSize
      · rw [if_pos hb]
        rw [List.length_append, List.length_singleton] at hb
        constructor
        · intro _
          exact Or.inl ⟨e, rfl, hb⟩
        · intro _ hcontra
          have hlen := congrArg List.length hcontra
          rw [List.length_append, List.length_singleton] at hlen
          omega
      · rw [if_neg hb]
        rw [List.length_append, List.length_singleton] at hb
        constructor
        · intro hcontra
          exact absurd rfl hcontra
        · rintro (⟨e', -, hlen⟩ | ⟨ht, -⟩)
          · exact absurd hlen hb
          · exact absurd ht (by simp)
    | tick =>
      simp only [workerStep]
      by_cases hb : 0 < s.batch.length
      · rw [if_pos hb]
        constructor
        · intro _
          exact Or.inr ⟨by trivial, hb⟩
        · intro _ hcontra
          have hlen := congrArg List.length hcontra
          rw [List.length_append, List.length_singleton] at hlen
          omega
      · rw [if_neg hb]
        constructor
        · intro hcontra
          exact absurd rfl hcontra
        · rintro (⟨e', he', -⟩ | ⟨-, hpos⟩)
          · exact absurd he' (by simp)
          · exact absurd hpos hb

theorem analyticsWorker_batching_witness :
    tickIntervalMillis = 100 ∧ flushBatchSize = 50 ∧
    (workerRun workerInit
      ((List.replicate 49 zeroAnalyticsEvent).map WorkerInput.recv)).flushes = [] ∧
    (workerRun workerInit
      ((List.replicate 49 zeroAnalyticsEvent).map WorkerInput.recv ++
        [WorkerInput.tick])).flushes = [List.replicate 49 zeroAnalyticsEvent] ∧
    (workerRun workerInit
      ((List.replicate 50 zeroAnalyticsEvent).map WorkerInput.recv)).flushes =
      [List.replicate 50 zeroAnalyticsEvent] ∧
    ((workerStep workerInit WorkerInput.tick).flushes ≠ workerInit.flushes ↔
      ((∃ e, WorkerInput.tick = WorkerInput.recv e ∧
          workerInit.batch.length + 1 ≥ flushBatchSize) ∨
       (WorkerInput.tick = WorkerInput.tick ∧ 0 < workerInit.batch.length))) :=
  analyticsWorker_batching (List.replicate 49 zeroAnalyticsEvent)
    (List.replicate 50 zeroAnalyticsEvent) workerInit WorkerInput.tick
    (by rw [List.length_replicate]) (by rw [List.length_replicate])

/-- C4 counterexample: an event whose analytics-insert statement fails is not skipped —
its click increment still reaches the store. One event against a store holding its code
with 0 clicks, with the increment succeeding, the insert failing and the commit
succeeding, leaves clicks at 1 (and no analytics row), so the batch changed the store
although the claim says the failed event is skipped. -/
theorem processBatch_insert_failure_not_skipped :
    (processBatch false false false false (fun _ => false) (fun _ => true)
        { urls := [{ ID := 1, ShortCode := "abc123",
                     LongURL := "https://example.com", Clicks := 0, CreatedAt := 0 }],
          analytics := [], nextId := 2 }
        [{ ShortCode := "abc123", IPAddress := "1.2.3.4", UserAgent := "ua",
           Timestamp := 7 }]).urls.map (fun r => r.Clicks) = [1] ∧
    (processBatch false false false false (fun _ => false) (fun _ => true)
        { urls := [{ ID := 1, ShortCode := "abc123",
                     LongURL := "https://example.com", Clicks := 0, CreatedAt := 0 }],
          analytics := [], nextId := 2 }
        [{ ShortCode := "abc123", IPAddress := "1.2.3.4", UserAgent := "ua",
           Timestamp := 7 }]).analytics = [] ∧
    (processBatch false false false false (fun _ => false) (fun _ => true)
        { urls := [{ ID := 1, ShortCode := "abc123",
                     LongURL := "https://example.com", Clicks := 0, CreatedAt := 0 }],
          analytics := [], nextId := 2 }
        [{ ShortCode := "abc123", IPAddress := "1.2.3.4", UserAgent := "ua",
           Timestamp := 7 }]) ≠
      { urls := [{ ID := 1, ShortCode := "abc123",
                   LongURL := "https://example.com", Clicks := 0, CreatedAt := 0 }],
        analytics := [], nextId := 2 } :=
  ⟨rfl, rfl, by decide⟩

theorem foldl_applyEvent_analytics (uF iF : AnalyticsEvent → Bool)
    (events : List AnalyticsEvent) (st : StoreState) :
    (events.foldl (applyEvent uF iF) st).analytics =
      st.analytics ++ (events.filter (fun e => !uF e && !iF e)).map eventRow := by
  induction events generalizing st with
  | nil => simp
  | cons e rest ih =>
    rw [List.foldl_cons, ih, List.filter_cons]
    by_cases hu : uF e
    · simp [applyEvent, hu]
    · by_cases hi : iF e
      · simp [applyEvent, hu, hi]
      · simp [applyEvent, hu, hi]

theorem foldl_applyEvent_urls (uF iF : AnalyticsEvent → Bool)
    (events : List AnalyticsEvent) (st : StoreState) :
    (events.foldl (applyEvent uF iF) st).urls =
      st.urls.map (fun r => { r with Clicks := r.Clicks +
        (events.filter (fun e => !uF e && r.ShortCode == e.ShortCode)).length }) := by
  induction events generalizing st with
  | nil =>
    simp only [List.foldl_nil, List.filter_nil, List.length_nil, Nat.add_zero]
    exact (List.map_id st.urls).symm
  | cons e rest ih =>
    rw [List.foldl_cons, ih]
    by_cases hu : uF e
    · have happ : applyEvent uF iF st e = st := by simp [applyEvent, hu]
      rw [happ]
      apply List.map_congr_left
      intro r _
      rw [List.filter_cons]
      simp [hu]
    · have happ : (applyEvent uF iF st e).urls =
          incrementClicks st.urls e.ShortCode := by
        by_cases hi : iF e <;> simp [applyEvent, hu, hi]
      rw [happ, incrementClicks, List.map_map]
      apply List.map_congr_left
      intro r _
      simp only [Function.comp_apply]
      by_cases hm : r.ShortCode == e.ShortCode
      · rw [if_pos hm, List.filter_cons, if_pos (by simp [hu, hm])]
        simp only [List.length_cons]
        rw [URL.mk.injEq]
        refine ⟨rfl, rfl, rfl, ?_, rfl⟩
        omega
      · rw [if_neg hm, List.filter_cons,
          if_neg (by simp only [Bool.and_eq_true]; rintro ⟨-, hc⟩; exact hm hc)]

/-- C4 (amended): during a batch flush, a failing per-event click-increment statement
skips that event entirely (no increment, no analytics row) while the remaining events
are still processed; a failing analytics-insert statement loses only that event's
analytics row — its click increment still commits; and a failure to commit the
transaction loses the whole batch (every increment and insert), all of this only
logged, never surfaced to a client (the store-effect function returns no error). -/
theorem processBatch_error_handling (uF iF : AnalyticsEvent → Bool) (st : StoreState)
    (events xs ys : List AnalyticsEvent) (e : AnalyticsEvent) (hu : uF e = true) :
    processBatch false false false true uF iF st events = st ∧
    processBatch false false false false uF iF st (xs ++ e :: ys) =
      processBatch false false false false uF iF st (xs ++ ys) ∧
    (processBatch false false false false uF iF st events).analytics =
      st.analytics ++ (events.filter (fun ev => !uF ev && !iF ev)).map eventRow ∧
    (processBatch false false false false uF iF st events).urls =
      st.urls.map (fun r => { r with Clicks := r.Clicks +
        (events.filter (fun ev => !uF ev && r.ShortCode == ev.ShortCode)).length }) := by
  have hfoldl : ∀ (evs : List AnalyticsEvent),
      processBatch false false false false uF iF st evs =
        evs.foldl (applyEvent uF iF) st := by
    intro evs
    unfold processBatch
    by_cases hlen : evs.length = 0
    · rw [if_pos hlen, List.length_eq_zero.mp hlen]
      rfl
    · rw [if_neg hlen]
      rfl
  have hskip : ∀ s, applyEvent uF iF s e = s := fun s => by simp [applyEvent, hu]
  refine ⟨?_, ?_, ?_, ?_⟩
  · unfold processBatch
    by_cases hlen : events.length = 0
    · rw [if_pos hlen]
    · rw [if_neg hlen]
      rfl
  · rw [hfoldl, hfoldl, List.foldl_append, List.foldl_cons, hskip,
      ← List.foldl_append]
  · rw [hfoldl]
    exact foldl_applyEvent_analytics uF iF events st
  · rw [hfoldl]
    exact foldl_applyEvent_urls uF iF events st

theorem processBatch_error_handling_witness :
    processBatch false false false true
        (fun ev => ev.ShortCode == "bad") (fun _ => false)
        { urls := [{ ID := 1, ShortCode := "abc123",
                     LongURL := "https://example.com", Clicks := 0, CreatedAt := 0 }],
          analytics := [], nextId := 2 }
        [{ ShortCode := "abc123", IPAddress := "1.2.3.4", UserAgent := "ua",
           Timestamp := 7 }] =
      { urls := [{ ID := 1, ShortCode := "abc123",
                   LongURL := "https://example.com", Clicks := 0, CreatedAt := 0 }],
        analytics := [], nextId := 2 } ∧
    processBatch false false false false
        (fun ev => ev.ShortCode == "bad") (fun _ => false)
        { urls := [{ ID := 1, ShortCode := "abc123",
                     LongURL := "https://example.com", Clicks := 0, CreatedAt := 0 }],
          analytics := [], nextId := 2 }
        [{ ShortCode := "abc123", IPAddress := "1.2.3.4", UserAgent := "ua",
           Timestamp := 7 },
         { ShortCode := "bad", IPAddress := "5.6.7.8", UserAgent := "ub",
           Timestamp := 8 }] =
      processBatch false false false false
        (fun ev => ev.ShortCode == "bad") (fun _ => false)
        { urls := [{ ID := 1, ShortCode := "abc123",
                     LongURL := "https://example.com", Clicks := 0, CreatedAt := 0 }],
          analytics := [], nextId := 2 }
        [{ ShortCode := "abc123", IPAddress := "1.2.3.4", UserAgent := "ua",
           Timestamp := 7 }] ∧
    (processBatch false false false false
        (fun ev => ev.ShortCode == "bad") (fun _ => false)
        { urls := [{ ID := 1, ShortCode := "abc123",
                     LongURL := "https://example.com", Clicks := 0, CreatedAt := 0 }],
          analytics := [], nextId := 2 }
        [{ ShortCode := "abc123", IPAddress := "1.2.3.4", UserAgent := "ua",
           Timestamp := 7 }]).analytics =
      [] ++ (([{ ShortCode := "abc123", IPAddress := "1.2.3.4", UserAgent := "ua",
                 Timestamp := 7 }] : List AnalyticsEvent).filter
          (fun ev => !(ev.ShortCode == "bad") && !false)).map eventRow ∧
    (processBatch false false false false
        (fun ev => ev.ShortCode == "bad") (fun _ => false)
        { urls := [{ ID := 1, ShortCode := "abc123",
                     LongURL := "https://example.com", Clicks := 0, CreatedAt := 0 }],
          analytics := [], nextId := 2 }
        [{ ShortCode := "abc123", IPAddress := "1.2.3.4", UserAgent := "ua",
           Timestamp := 7 }]).urls =
      ([{ ID := 1, ShortCode := "abc123", LongURL := "https://example.com",
          Clicks := 0, CreatedAt := 0 }] : List URL).map
        (fun r => { r with Clicks := r.Clicks +
          (([{ ShortCode := "abc123", IPAddress := "1.2.3.4", UserAgent := "ua",
               Timestamp := 7 }] : List AnalyticsEvent).filter
            (fun ev => !(ev.ShortCode == "bad") &&
              r.ShortCode == ev.ShortCode)).length }) :=
  processBatch_error_handling (fun ev => ev.ShortCode == "bad") (fun _ => false)
    { urls := [{ ID := 1, ShortCode := "abc123", LongURL := "https://example.com",
                 Clicks := 0, CreatedAt := 0 }],
      analytics := [], nextId := 2 }
    [{ ShortCode := "abc123", IPAddress := "1.2.3.4", UserAgent := "ua",
       Timestamp := 7 }]
    [{ ShortCode := "abc123", IPAddress := "1.2.3.4", UserAgent := "ua",
       Timestamp := 7 }] []
    { ShortCode := "bad", IPAddress := "5.6.7.8", UserAgent := "ub", Timestamp := 8 }
    (by decide)

end URLShortenerGo
